import Mathlib

/-!
Shallow embedding of the slideshow queue manager of
`custom_components/samsungtv_smart/slideshow.py` and of the artwork-provider
framework of `custom_components/samsungtv_smart/providers/__init__.py` and
`providers/media_folder.py`, together with theorems settling the claims about
them.

Modelling conventions:
* A Python artwork dict is modelled by the `Artwork` structure; every key the
  code reads is an `Option String` field (`none` = key absent).  `dict.get(k)`
  is field access; Python truthiness of a string value is `usableCid`
  (absent or empty string are both falsy).
* `collections.deque(maxlen := n)` appends are `dequeAppend n`: when the deque
  is full the oldest (leftmost) element is evicted.
* `random.choice(xs)` is modelled by an arbitrary index `choice : Nat`, taken
  modulo `xs.length`; quantifying over `choice` covers every possible pick.
* `random.shuffle` is modelled by an arbitrary function
  `shuffler : List Artwork → List Artwork`; theorems that need it add the
  hypothesis that it permutes its input.
* History entries `{"artwork": a, "timestamp": now}` are modelled by the
  artwork alone: the timestamp is written but never read by any operation.
* Stateful methods become pure functions `QMState → QMState` (returning the
  method result in a pair where the method returns one).
-/

/-- A Python artwork dict.  Fields are the keys read anywhere in the embedded
code; `none` models a missing key. -/
structure Artwork where
  content_id : Option String
  id : Option String
  source : Option String
  title : Option String
  local_path : Option String
  filename : Option String
deriving DecidableEq, Repr

/-- The artwork dict with no keys at all. -/
def emptyArtwork : Artwork :=
  { content_id := none, id := none, source := none, title := none,
    local_path := none, filename := none }

/-- Value of `artwork.get("content_id")` followed by Python truthiness: the guard
`not artwork or not artwork.get("content_id")` rejects a missing key and an
empty string (an empty dict has no `content_id` key, so the `not artwork`
disjunct adds nothing). -/
def usableCid (a : Artwork) : Option String :=
  match a.content_id with
  | none => none
  | some s => if s = "" then none else some s

/-- Append on a `collections.deque` with `maxlen`: when full, the leftmost
element is evicted.  (All deques in the code start empty and only grow through
this operation, so their length never exceeds `maxlen`.) -/
def dequeAppend (maxlen : Nat) (xs : List α) (x : α) : List α :=
  if xs.length < maxlen then xs ++ [x] else xs.tail ++ [x]

/-- State of a `SlideshowQueueManager` instance (`slideshow.py`).  The
`_overlay_patterns`/`_compiled_patterns`/`_ws` fields are omitted: no claim
touches `is_overlay_image` and `_ws` is only stored. -/
structure QMState where
  queue : List Artwork
  history : List Artwork
  shuffle : Bool
  current_index : Int
  pending_overlay : Option Artwork
  available_artworks : List Artwork
  category : Int
  auto_random : Bool
  recently_shown : List (Option String)
deriving DecidableEq, Repr

/-- Embedding of `SlideshowQueueManager.__init__`. -/
def initState (shuffle : Bool) : QMState :=
  { queue := [], history := [], shuffle := shuffle, current_index := -1,
    pending_overlay := none, available_artworks := [], category := 2,
    auto_random := true, recently_shown := [] }

/-- Embedding of `SlideshowQueueManager.add_to_queue`. -/
def add_to_queue (artwork : Artwork) (s : QMState) : QMState :=
  match usableCid artwork with
  | none => s
  | some content_id =>
    if s.queue.any (fun item => decide (item.content_id = some content_id)) then
      s
    else
      { s with queue := s.queue ++ [artwork] }

/-- Embedding of `SlideshowQueueManager.remove_from_queue`: deletes the first queue entry
whose `content_id` equals `content_id`, returning whether one was found. -/
def remove_from_queue (content_id : String) (s : QMState) : Bool × QMState :=
  match s.queue.findIdx? (fun item => decide (item.content_id = some content_id)) with
  | some i => (true, { s with queue := s.queue.eraseIdx i })
  | none => (false, s)

/-- Embedding of `SlideshowQueueManager.set_queue`.  Here `shuffler` stands for
`random.shuffle` (applied only when shuffle mode is on). -/
def set_queue (shuffler : List Artwork → List Artwork) (artworks : List Artwork)
    (s : QMState) : QMState :=
  let q := artworks.filter (fun a => (usableCid a).isSome)
  let q := if s.shuffle then shuffler q else q
  { s with queue := q, current_index := -1 }

/-- Embedding of `SlideshowQueueManager._get_random_artwork`.  Here `choice` stands for the
index `random.choice` picks (reduced modulo the candidate count). -/
def getRandomArtwork (choice : Nat) (s : QMState) : Option Artwork × QMState :=
  if s.available_artworks = [] then
    (none, s)
  else
    let available := s.available_artworks.filter
      (fun a => decide (a.content_id ∉ s.recently_shown))
    let reset := available = []
    let s1 := if reset then { s with recently_shown := [] } else s
    let avail := if reset then s.available_artworks else available
    let artwork := avail.getD (choice % avail.length) emptyArtwork
    (some artwork,
     { s1 with recently_shown := dequeAppend 20 s1.recently_shown artwork.content_id })

/-- Embedding of `SlideshowQueueManager.get_next`. -/
def get_next (choice : Nat) (s : QMState) : Option Artwork × QMState :=
  match s.pending_overlay with
  | some overlay => (some overlay, { s with pending_overlay := none })
  | none =>
    if s.queue ≠ [] then
      let idx := (s.current_index + 1) % (s.queue.length : Int)
      let next := s.queue.getD idx.toNat emptyArtwork
      (some next,
       { s with current_index := idx,
                history := dequeAppend 50 s.history next })
    else if s.auto_random then
      let r := getRandomArtwork choice s
      match r.1 with
      | none => (none, r.2)
      | some next =>
        (some next, { r.2 with history := dequeAppend 50 r.2.history next })
    else
      (none, s)

/-- Embedding of `SlideshowQueueManager.get_previous`. -/
def get_previous (s : QMState) : Option Artwork × QMState :=
  if s.history.length < 2 then
    (none, s)
  else
    let history := s.history.dropLast
    if history ≠ [] then
      (history.getLast?, { s with history := history })
    else
      (none, { s with history := history })

/-- Embedding of `SlideshowQueueManager.peek_next`.  The Python method performs no
assignment to any attribute, so the embedded state component is `s` itself on
every path. -/
def peek_next (choice : Nat) (s : QMState) : Option Artwork × QMState :=
  match s.pending_overlay with
  | some overlay => (some overlay, s)
  | none =>
    if s.queue ≠ [] then
      let next_index := (s.current_index + 1) % (s.queue.length : Int)
      (some (s.queue.getD next_index.toNat emptyArtwork), s)
    else if s.auto_random then
      if s.available_artworks = [] then
        (none, s)
      else
        let available := s.available_artworks.filter
          (fun a => decide (a.content_id ∉ s.recently_shown))
        let avail := if available = [] then s.available_artworks else available
        (if avail ≠ [] then
           some (avail.getD (choice % avail.length) emptyArtwork)
         else none, s)
    else
      (none, s)

/-- Embedding of `SlideshowQueueManager.get_current`. -/
def get_current (s : QMState) : Option Artwork :=
  match s.history.getLast? with
  | some a => some a
  | none => none

/-- Embedding of `SlideshowQueueManager.add_overlay`. -/
def add_overlay (artwork : Artwork) (s : QMState) : QMState :=
  match usableCid artwork with
  | none => s
  | some _ => { s with pending_overlay := some artwork }

/-- Embedding of `SlideshowQueueManager.clear`. -/
def qmClear (s : QMState) : QMState :=
  { s with queue := [], history := [], current_index := -1,
           pending_overlay := none }

/-- The `shuffle` property setter: stores the flag and reshuffles a non-empty
queue when turning shuffle on. -/
def set_shuffle (shuffler : List Artwork → List Artwork) (value : Bool)
    (s : QMState) : QMState :=
  let s1 := { s with shuffle := value }
  if value ∧ s1.queue ≠ [] then { s1 with queue := shuffler s1.queue } else s1

/-- Embedding of `SlideshowQueueManager.set_available_artworks`. -/
def set_available_artworks (artworks : List Artwork) (s : QMState) : QMState :=
  { s with available_artworks := artworks }

/-- Embedding of `SlideshowQueueManager.set_category`. -/
def set_category (category : Int) (s : QMState) : QMState :=
  { s with category := category }

/-- Embedding of `SlideshowQueueManager.set_auto_random`. -/
def set_auto_random (enabled : Bool) (s : QMState) : QMState :=
  { s with auto_random := enabled }

/-- Run of `n` successive `get_next` calls; `chs t` is the random-choice oracle for
the `t`-th call.  Returns the list of results and the final state. -/
def getNextRun (chs : Nat → Nat) : Nat → QMState → List (Option Artwork) × QMState
  | 0, s => ([], s)
  | n + 1, s =>
    let r := get_next (chs 0) s
    let rest := getNextRun (fun i => chs (i + 1)) n r.2
    (r.1 :: rest.1, rest.2)

/-! ## Artwork provider framework (`providers/__init__.py`, `providers/media_folder.py`) -/

/-- Mutable state of an `ArtworkProvider` (`providers/__init__.py`). -/
structure ProviderState where
  enabled : Bool
  last_error : Option String
  artworks : List Artwork
deriving DecidableEq, Repr

/-- Embedding of `ArtworkProvider.async_refresh`.  Here `loadResult` is the outcome of the
`await self.async_load_artworks()` call: `Except.ok` a list, or
`Except.error` the exception text when the coroutine raises. -/
def async_refresh (loadResult : Except String (List Artwork))
    (p : ProviderState) : ProviderState :=
  if ¬ p.enabled then
    p
  else
    match loadResult with
    | .ok arts => { p with artworks := arts, last_error := none }
    | .error e => { p with last_error := some e }

/-- A file yielded by the `rglob`/`glob` scan in
`MediaFolderProvider.async_load_artworks`: the `pathlib.Path` attributes the
code reads. -/
structure MFFile where
  path : String
  name : String
  stem : String
  suffixLower : String
  isFile : Bool
deriving DecidableEq, Repr

/-- The filesystem as seen by `MediaFolderProvider`: the configured path's
existence and kind, and the outcome of iterating the directory scan (which can
raise `OSError` mid-iteration, modelled by `Except.error`). -/
structure MediaFolderFS where
  pathConfigured : Option String
  pathExists : Bool
  pathIsDir : Bool
  scan : Except String (List MFFile)
deriving Repr

/-- Embedding of `MediaFolderProvider._get_folder_path`: `None` when the config value is
falsy, the path does not exist, or is not a directory. -/
def getFolderPath (fs : MediaFolderFS) : Option String :=
  match fs.pathConfigured with
  | none => none
  | some p =>
    if p = "" then none
    else if ¬ fs.pathExists then none
    else if ¬ fs.pathIsDir then none
    else some p

/-- Embedding of `MediaFolderProvider._get_patterns` for a string-valued (or absent)
`media_folder_patterns` config entry: split on commas and strip. -/
def getPatterns (cfg : Option String) : List String :=
  ((cfg.getD "*.jpg,*.jpeg,*.png").splitOn ",").map String.trim

/-- Constant `SUPPORTED_EXTENSIONS` from `media_folder.py`. -/
def SUPPORTED_EXTENSIONS : List String := [".jpg", ".jpeg", ".png"]

/-- Model of `pathlib.Path.match` (standard library, not repository code), modelled for
the glob shapes this integration's configuration produces: a bare `*` matches
everything, a pattern beginning with `*` matches any name with that suffix and
any other pattern matches the name literally. -/
def pathMatch (name : String) (pattern : String) : Bool :=
  if pattern = "*" then true
  else if String.startsWith pattern "*" then String.endsWith name (pattern.drop 1)
  else pattern = name

/-- Embedding of `MediaFolderProvider._should_include_file`. -/
def shouldIncludeFile (patterns : List String) (f : MFFile) : Bool :=
  if ¬ SUPPORTED_EXTENSIONS.contains f.suffixLower then false
  else if String.startsWith f.name "." then false
  else if patterns.any (fun p => pathMatch f.name p) then true
  else if patterns = [] ∨ patterns = ["*"] then true
  else false

/-- The artwork dict `async_load_artworks` builds per included file: keys
`id`, `source`, `title`, `local_path`, `filename` — no `content_id`. -/
def mkMediaArtwork (f : MFFile) : Artwork :=
  { content_id := none, id := some f.path, source := some "Media Folder",
    title := some f.stem, local_path := some f.path, filename := some f.name }

/-- Embedding of `MediaFolderProvider.async_load_artworks`.  Note both failure modes return
`Except.ok []`: an unusable folder path returns `[]`, and the `try`/`except`
around the scan loop logs and returns `[]` rather than re-raising. -/
def mediaFolderLoadArtworks (patternsCfg : Option String) (fs : MediaFolderFS) :
    Except String (List Artwork) :=
  match getFolderPath fs with
  | none => .ok []
  | some _ =>
    match fs.scan with
    | .error _ => .ok []
    | .ok files =>
      .ok (((files.filter (fun f => f.isFile)).filter
              (shouldIncludeFile (getPatterns patternsCfg))).map mkMediaArtwork)

/-! ## Concrete fixtures used by witnesses and counterexamples -/

/-- Artwork with content id `"a"` (a TV artwork). -/
def artA : Artwork := { emptyArtwork with content_id := some "a" }

/-- Artwork with content id `"b"`. -/
def artB : Artwork := { emptyArtwork with content_id := some "b" }

/-- Artwork with content id `"c"`. -/
def artC : Artwork := { emptyArtwork with content_id := some "c" }

/-- Artwork with content id `"y"`. -/
def artY : Artwork := { emptyArtwork with content_id := some "y" }

/-- An externally-sourced descriptor: an `id` key but no `content_id`. -/
def artExt : Artwork := { emptyArtwork with id := some "ext1" }

/-- A scanned file fixture for the media-folder provider. -/
def mfFileW : MFFile :=
  { path := "/media/frame/pic.jpg", name := "pic.jpg", stem := "pic",
    suffixLower := ".jpg", isFile := true }

/-- Filesystem fixture whose directory scan raises mid-iteration. -/
def fsScanError : MediaFolderFS :=
  { pathConfigured := some "/media/frame", pathExists := true,
    pathIsDir := true, scan := .error "OSError: I/O error" }

/-- An enabled provider that has a catalog from a prior successful load. -/
def providerLoaded : ProviderState :=
  { enabled := true, last_error := none, artworks := [artA] }

/-- Every queue member has a usable (non-empty) content id: the invariant of
claim C10. -/
def QueueInv (s : QMState) : Prop :=
  ∀ a ∈ s.queue, (usableCid a).isSome

/-- Shorthand for the anti-repeat filter inside `_get_random_artwork` and
`peek_next`. -/
def notRecent (s : QMState) : List Artwork :=
  s.available_artworks.filter (fun a => decide (a.content_id ∉ s.recently_shown))

/-- The artwork `_get_random_artwork` picks when the anti-repeat filter came
back empty (pick from the full pool after the reset). -/
def resetPick (c : Nat) (s : QMState) : Artwork :=
  s.available_artworks.getD (c % s.available_artworks.length) emptyArtwork

/-- The artwork `_get_random_artwork` picks when the anti-repeat filter is
non-empty. -/
def nonresetPick (c : Nat) (s : QMState) : Artwork :=
  (notRecent s).getD (c % (notRecent s).length) emptyArtwork

/-- A state whose random pool holds the two distinct artworks `artA`, `artB`. -/
def sPool2 : QMState :=
  { initState true with available_artworks := [artA, artB] }

/-! ## Helper lemmas -/

theorem dequeAppend_mem_last (maxlen : Nat) (xs : List α) (x : α) :
    x ∈ dequeAppend maxlen xs x := by
  unfold dequeAppend
  split <;> simp

theorem getD_mod_mem (l : List α) (d : α) (h : l ≠ []) (c : Nat) :
    l.getD (c % l.length) d ∈ l := by
  have hlen : 0 < l.length := List.length_pos.mpr h
  have hlt : c % l.length < l.length := Nat.mod_lt _ hlen
  rw [List.getD_eq_getElem l d hlt]
  exact List.getElem_mem hlt

theorem range_map_getD (l : List α) (d : α) :
    (List.range l.length).map (fun t => l.getD t d) = l := by
  induction l with
  | nil => simp
  | cons a l ih =>
    rw [List.length_cons, List.range_succ_eq_map, List.map_cons, List.map_map]
    have hfun : ((fun t => (a :: l).getD t d) ∘ Nat.succ) = fun t => l.getD t d := by
      funext t
      simp [List.getD_cons_succ]
    rw [hfun, ih]
    simp [List.getD_cons_zero]



theorem getRandomArtwork_eq_reset (c : Nat) (s : QMState)
    (h : s.available_artworks ≠ []) (hav : notRecent s = []) :
    getRandomArtwork c s =
      (some (resetPick c s),
       { s with recently_shown := dequeAppend 20 [] (resetPick c s).content_id }) := by
  unfold getRandomArtwork resetPick
  rw [if_neg h]
  unfold notRecent at hav
  simp only [hav]
  simp

theorem getRandomArtwork_eq_nonreset (c : Nat) (s : QMState)
    (hav : notRecent s ≠ []) :
    getRandomArtwork c s =
      (some (nonresetPick c s),
       { s with
           recently_shown :=
             dequeAppend 20 s.recently_shown (nonresetPick c s).content_id }) := by
  have h : s.available_artworks ≠ [] := by
    intro hnil
    exact hav (by simp [notRecent, hnil])
  unfold getRandomArtwork nonresetPick
  rw [if_neg h]
  unfold notRecent at hav ⊢
  simp only [if_neg hav]

theorem getRandomArtwork_cases (c : Nat) (s : QMState)
    (h : s.available_artworks ≠ []) :
    (notRecent s = [] ∧ getRandomArtwork c s =
      (some (resetPick c s),
       { s with recently_shown := dequeAppend 20 [] (resetPick c s).content_id })) ∨
    (notRecent s ≠ [] ∧ getRandomArtwork c s =
      (some (nonresetPick c s),
       { s with
           recently_shown :=
             dequeAppend 20 s.recently_shown (nonresetPick c s).content_id })) := by
  by_cases hav : notRecent s = []
  · exact Or.inl ⟨hav, getRandomArtwork_eq_reset c s h hav⟩
  · exact Or.inr ⟨hav, getRandomArtwork_eq_nonreset c s hav⟩

theorem getRandomArtwork_frame (c : Nat) (s : QMState) :
    (getRandomArtwork c s).2.queue = s.queue ∧
    (getRandomArtwork c s).2.history = s.history ∧
    (getRandomArtwork c s).2.pending_overlay = s.pending_overlay ∧
    (getRandomArtwork c s).2.available_artworks = s.available_artworks ∧
    (getRandomArtwork c s).2.auto_random = s.auto_random ∧
    (getRandomArtwork c s).2.current_index = s.current_index := by
  by_cases h : s.available_artworks = []
  · unfold getRandomArtwork
    rw [if_pos h]
    simp
  · rcases getRandomArtwork_cases c s h with ⟨_, heq⟩ | ⟨_, heq⟩ <;> rw [heq] <;> simp

theorem getRandomArtwork_isSome (c : Nat) (s : QMState)
    (h : s.available_artworks ≠ []) : ((getRandomArtwork c s).1).isSome := by
  rcases getRandomArtwork_cases c s h with ⟨_, heq⟩ | ⟨_, heq⟩ <;> rw [heq] <;> simp

theorem notRecent_mem (s : QMState) (a : Artwork) (ha : a ∈ notRecent s) :
    a ∈ s.available_artworks ∧ a.content_id ∉ s.recently_shown := by
  have := List.mem_filter.mp ha
  exact ⟨this.1, by simpa using this.2⟩

theorem getRandomArtwork_some_spec (c : Nat) (s : QMState)
    (h : s.available_artworks ≠ []) :
    ∀ a, (getRandomArtwork c s).1 = some a →
      a ∈ s.available_artworks ∧
      a.content_id ∈ (getRandomArtwork c s).2.recently_shown := by
  intro a ha
  rcases getRandomArtwork_cases c s h with ⟨_, heq⟩ | ⟨hne, heq⟩ <;> rw [heq] at ha ⊢ <;>
    simp only [Option.some.injEq] at ha <;> subst ha
  · exact ⟨getD_mod_mem _ _ h _,
      dequeAppend_mem_last 20 [] (resetPick c s).content_id⟩
  · refine ⟨(notRecent_mem s _ (getD_mod_mem _ _ hne _)).1, ?_⟩
    exact dequeAppend_mem_last 20 s.recently_shown (nonresetPick c s).content_id

theorem getRandomArtwork_nonreset_spec (c : Nat) (s : QMState)
    (hav : notRecent s ≠ []) :
    ∀ a, (getRandomArtwork c s).1 = some a →
      a.content_id ∉ s.recently_shown ∧
      (getRandomArtwork c s).2.recently_shown =
        dequeAppend 20 s.recently_shown a.content_id := by
  intro a ha
  rw [getRandomArtwork_eq_nonreset c s hav] at ha ⊢
  simp only [Option.some.injEq] at ha
  subst ha
  exact ⟨(notRecent_mem s _ (getD_mod_mem _ _ hav _)).2, rfl⟩


theorem getRandomArtwork_reset_spec (c : Nat) (s : QMState)
    (h : s.available_artworks ≠ []) (hav : notRecent s = []) :
    ∀ a, (getRandomArtwork c s).1 = some a →
      (getRandomArtwork c s).2.recently_shown = dequeAppend 20 [] a.content_id := by
  intro a ha
  rw [getRandomArtwork_eq_reset c s h hav] at ha ⊢
  simp only [Option.some.injEq] at ha
  subst ha
  rfl

theorem get_next_pending (c : Nat) (s : QMState) (a : Artwork)
    (h : s.pending_overlay = some a) :
    get_next c s = (some a, { s with pending_overlay := none }) := by
  unfold get_next
  rw [h]

theorem get_next_queue (c : Nat) (s : QMState)
    (hp : s.pending_overlay = none) (hq : s.queue ≠ []) :
    get_next c s =
      (some (s.queue.getD ((s.current_index + 1) % (s.queue.length : Int)).toNat
          emptyArtwork),
       { s with
           current_index := (s.current_index + 1) % (s.queue.length : Int),
           history :=
             dequeAppend 50 s.history
               (s.queue.getD ((s.current_index + 1) % (s.queue.length : Int)).toNat
                 emptyArtwork) }) := by
  unfold get_next
  rw [hp]
  dsimp only
  rw [if_pos hq]

theorem get_next_random (c : Nat) (s : QMState)
    (hp : s.pending_overlay = none) (hq : s.queue = [])
    (ha : s.auto_random = true) :
    (get_next c s).1 = (getRandomArtwork c s).1 ∧
    ((getRandomArtwork c s).1 = none → (get_next c s).2 = (getRandomArtwork c s).2) ∧
    (∀ a, (getRandomArtwork c s).1 = some a →
      (get_next c s).2 =
        { (getRandomArtwork c s).2 with
            history := dequeAppend 50 (getRandomArtwork c s).2.history a }) := by
  unfold get_next
  rw [hp]
  dsimp only
  rw [if_neg (by simp [hq]), if_pos (by rw [ha])]
  cases hr : (getRandomArtwork c s).1 <;> simp [hr]

theorem getNextRun_queue (m : Nat) :
    ∀ (chs : Nat → Nat) (s : QMState),
      s.pending_overlay = none → s.queue ≠ [] →
      (getNextRun chs m s).1 =
        (List.range m).map (fun (t : Nat) =>
          some (s.queue.getD
            (((s.current_index + 1 + (t : Int)) % (s.queue.length : Int)).toNat)
            emptyArtwork)) ∧
      (getNextRun chs m s).2.queue = s.queue ∧
      (getNextRun chs m s).2.pending_overlay = none := by
  induction m with
  | zero =>
    intro chs s hp hq
    simp [getNextRun, hp]
  | succ m ih =>
    intro chs s hp hq
    have hstep := get_next_queue (chs 0) s hp hq
    have hq2 : (get_next (chs 0) s).2.queue = s.queue := by rw [hstep]
    have hp2 : (get_next (chs 0) s).2.pending_overlay = none := by rw [hstep]; exact hp
    have hi2 : (get_next (chs 0) s).2.current_index =
        (s.current_index + 1) % (s.queue.length : Int) := by rw [hstep]
    have hqne2 : (get_next (chs 0) s).2.queue ≠ [] := by rw [hq2]; exact hq
    have ihr := ih (fun i => chs (i + 1)) (get_next (chs 0) s).2 hp2 hqne2
    refine ⟨?_, by simpa [getNextRun, hq2] using ihr.2.1,
            by simpa [getNextRun] using ihr.2.2⟩
    show (get_next (chs 0) s).1 ::
        (getNextRun (fun i => chs (i + 1)) m (get_next (chs 0) s).2).1 = _
    rw [ihr.1, hq2, hi2]
    rw [List.range_succ_eq_map, List.map_cons, List.map_map]
    congr 1
    · rw [hstep]
      norm_num
    · apply List.map_congr_left
      intro t _
      simp only [Function.comp_apply]
      congr 2
      push_cast
      rw [show ((s.current_index + 1) % (s.queue.length : Int) + 1 + (t : Int)) =
            ((s.current_index + 1) % (s.queue.length : Int) + (1 + (t : Int))) by ring,
          Int.emod_add_emod]
      ring_nf

theorem usableCid_some (A : Artwork) (c : String) (h : usableCid A = some c) :
    A.content_id = some c := by
  cases hA : A.content_id with
  | none => simp [usableCid, hA] at h
  | some t =>
    simp only [usableCid, hA] at h
    by_cases ht : t = ""
    · rw [if_pos ht] at h
      simp at h
    · rw [if_neg ht] at h
      simp only [Option.some.injEq] at h
      rw [h]

theorem get_next_queue_unchanged (c : Nat) (s : QMState) :
    (get_next c s).2.queue = s.queue := by
  cases hpo : s.pending_overlay with
  | some a => rw [get_next_pending c s a hpo]
  | none =>
    by_cases hq : s.queue = []
    · by_cases ha : s.auto_random = true
      · have hr := get_next_random c s hpo hq ha
        cases hg : (getRandomArtwork c s).1 with
        | none => rw [hr.2.1 hg]; exact (getRandomArtwork_frame c s).1
        | some a => rw [hr.2.2 a hg]; exact (getRandomArtwork_frame c s).1
      · unfold get_next
        rw [hpo]
        dsimp only
        rw [if_neg (by simp [hq]), if_neg ha]
    · rw [get_next_queue c s hpo hq]

theorem peek_next_state_unchanged (c : Nat) (s : QMState) :
    (peek_next c s).2 = s := by
  unfold peek_next
  cases s.pending_overlay <;> dsimp only
  split
  · rfl
  · split
    · split
      · rfl
      · rfl
    · rfl

theorem get_previous_queue_unchanged (s : QMState) :
    (get_previous s).2.queue = s.queue := by
  unfold get_previous
  split
  · rfl
  · dsimp only
    split
    · rfl
    · rfl

/-! ## Claims -/

/-- C6: `get_previous` returns `none` if and only if fewer than two History
entries exist; otherwise it pops the current History entry and returns the
artwork of the new tail, shrinking History by one. -/
theorem C6_get_previous_spec (s : QMState) :
    ((get_previous s).1 = none ↔ s.history.length < 2) ∧
    (2 ≤ s.history.length →
      (get_previous s).2.history = s.history.dropLast ∧
      (get_previous s).1 = s.history.dropLast.getLast? ∧
      (get_previous s).2.history.length + 1 = s.history.length) := by
  by_cases h : s.history.length < 2
  · unfold get_previous
    rw [if_pos h]
    exact ⟨by simp [h], fun h2 => absurd h2 (by omega)⟩
  · have hne : s.history.dropLast ≠ [] := by
      intro hnil
      have := congrArg List.length hnil
      rw [List.length_dropLast] at this
      simp at this
      omega
    unfold get_previous
    rw [if_neg h]
    dsimp only
    rw [if_pos hne]
    refine ⟨⟨fun hnone => ?_, fun hlt => absurd hlt h⟩,
            fun _ => ⟨rfl, rfl, ?_⟩⟩
    · exact absurd (List.getLast?_eq_none_iff.mp hnone) hne
    · simp only [List.length_dropLast]
      omega

/-- C6 witness: with History `[artA, artB]`, `get_previous` pops `artB` and
returns `artA`. -/
theorem C6_witness :
    2 ≤ ({ initState false with history := [artA, artB] } : QMState).history.length ∧
    (get_previous { initState false with history := [artA, artB] }).1 = some artA ∧
    (get_previous { initState false with history := [artA, artB] }).2.history = [artA] := by
  have h := (C6_get_previous_spec { initState false with history := [artA, artB] }).2
      (by decide)
  refine ⟨by decide, ?_, ?_⟩
  · rw [h.2.1]
    decide
  · rw [h.1]
    decide

/-- C8: `add_to_queue` is idempotent with respect to duplicate content ids:
enqueuing an artwork whose id is already in the queue leaves the state
unchanged, enqueuing an artwork with no usable id is a silent no-op, and
enqueuing the same artwork twice equals enqueuing it once. -/
theorem C8_add_to_queue_idempotent (s : QMState) (A : Artwork) :
    (∀ c, usableCid A = some c →
      (∃ item ∈ s.queue, item.content_id = some c) → add_to_queue A s = s) ∧
    (usableCid A = none → add_to_queue A s = s) ∧
    add_to_queue A (add_to_queue A s) = add_to_queue A s := by
  refine ⟨?_, ?_, ?_⟩
  · rintro c hc ⟨item, hmem, hid⟩
    have hany : s.queue.any (fun item => decide (item.content_id = some c)) = true :=
      List.any_eq_true.mpr ⟨item, hmem, by simp [hid]⟩
    unfold add_to_queue
    rw [hc]
    simp [hany]
  · intro h
    unfold add_to_queue
    rw [h]
  · cases hc : usableCid A with
    | none =>
      have h1 : add_to_queue A s = s := by unfold add_to_queue; rw [hc]
      rw [h1, h1]
    | some c =>
      by_cases hq : s.queue.any (fun item => decide (item.content_id = some c)) = true
      · have h1 : add_to_queue A s = s := by
          unfold add_to_queue
          rw [hc]
          simp [hq]
        rw [h1, h1]
      · have h1 : add_to_queue A s = { s with queue := s.queue ++ [A] } := by
          unfold add_to_queue
          rw [hc]
          simp only [hq, if_false, Bool.false_eq_true]
        rw [h1]
        have hcid : A.content_id = some c := usableCid_some A c hc
        have hany : (s.queue ++ [A]).any
            (fun item => decide (item.content_id = some c)) = true := by
          rw [List.any_append]
          simp [hcid]
        unfold add_to_queue
        rw [hc]
        simp [hany]

/-- C8 witness: enqueuing `artA` twice from the empty queue yields the same
state as enqueuing it once, and enqueuing the id-less `artExt` is a no-op. -/
theorem C8_witness :
    usableCid artExt = none ∧
    add_to_queue artExt (initState true) = initState true ∧
    add_to_queue artA (add_to_queue artA (initState true)) =
      add_to_queue artA (initState true) := by
  have h := C8_add_to_queue_idempotent (initState true) artExt
  have h2 := C8_add_to_queue_idempotent (initState true) artA
  exact ⟨by decide, h.2.1 (by decide), h2.2.2⟩

/-- C5 (amended): for every artwork `X` with a usable content id,
`add_overlay X` sets the one-shot pending override slot, unconditionally
replacing any prior pending value; the immediately following `get_next`
returns `X` regardless of queue state and clears the slot, and a second
`get_next` afterwards behaves exactly as `get_next` on the state with the
slot empty. -/
theorem C5_add_overlay_one_shot (s : QMState) (X : Artwork) (c : Nat)
    (h : (usableCid X).isSome) :
    add_overlay X s = { s with pending_overlay := some X } ∧
    get_next c (add_overlay X s) = (some X, { s with pending_overlay := none }) ∧
    (∀ c2, get_next c2 (get_next c (add_overlay X s)).2 =
      get_next c2 { s with pending_overlay := none }) := by
  obtain ⟨cx, hcx⟩ := Option.isSome_iff_exists.mp h
  have h1 : add_overlay X s = { s with pending_overlay := some X } := by
    unfold add_overlay
    rw [hcx]
  have h2 : get_next c (add_overlay X s) = (some X, { s with pending_overlay := none }) := by
    rw [h1, get_next_pending c _ X rfl]
  exact ⟨h1, h2, fun c2 => by rw [h2]⟩

/-- C5 witness: after `add_overlay artA` on a state with queue `[artB]`, the
next `get_next` returns `artA`, and the one after returns `artB` from the
queue. -/
theorem C5_witness :
    ((usableCid artA).isSome : Prop) ∧
    (get_next 0 (add_overlay artA { initState false with queue := [artB] })).1 =
      some artA ∧
    (get_next 1 (get_next 0 (add_overlay artA
        { initState false with queue := [artB] })).2).1 = some artB := by
  have h := C5_add_overlay_one_shot { initState false with queue := [artB] } artA 0
      (by decide)
  refine ⟨by decide, ?_, ?_⟩
  · rw [h.2.1]
  · rw [h.2.2 1]
    decide

/-- C5 counterexample: the claim quantifies over every artwork `X`, but
`add_overlay` rejects an artwork without a usable content id: with the
id-less `artExt` and a prior pending `artY`, the slot is not replaced and the
following `get_next` returns `artY`, not `artExt`. -/
theorem C5_counterexample :
    add_overlay artExt { initState true with pending_overlay := some artY } =
      { initState true with pending_overlay := some artY } ∧
    artY ≠ artExt ∧
    (get_next 0 (add_overlay artExt
        { initState true with pending_overlay := some artY })).1 = some artY := by
  decide

/-- C1 (amended): every non-`none` `get_next` result coming from the queue or
from random fallback is appended to History before being returned, and
`get_next` is the only operation that ever appends to History — but a result
served from the pending override slot is returned without being appended. -/
theorem C1_history_single_writer (s : QMState) (c : Nat) :
    (s.pending_overlay = none → ∀ a, (get_next c s).1 = some a →
      (get_next c s).2.history = dequeAppend 50 s.history a) ∧
    (∀ a, s.pending_overlay = some a →
      get_next c s = (some a, { s with pending_overlay := none })) ∧
    ((get_next c s).1 = none → (get_next c s).2.history = s.history) ∧
    (∀ A, (add_to_queue A s).history = s.history) ∧
    (∀ cid, (remove_from_queue cid s).2.history = s.history) ∧
    (∀ σ L, (set_queue σ L s).history = s.history) ∧
    (∀ A, (add_overlay A s).history = s.history) ∧
    (∀ c2, (peek_next c2 s).2.history = s.history) ∧
    ((get_previous s).2.history = s.history ∨
      (get_previous s).2.history = s.history.dropLast) ∧
    (qmClear s).history = [] ∧
    (∀ σ v, (set_shuffle σ v s).history = s.history) ∧
    (∀ L, (set_available_artworks L s).history = s.history) ∧
    (∀ n, (set_category n s).history = s.history) ∧
    (∀ b, (set_auto_random b s).history = s.history) := by
  refine ⟨?_, fun a hpa => get_next_pending c s a hpa, ?_, ?_, ?_, ?_, ?_,
      fun c2 => by rw [peek_next_state_unchanged], ?_, rfl, ?_, fun L => rfl,
      fun n => rfl, fun b => rfl⟩
  · intro hp a ha
    by_cases hq : s.queue = []
    · by_cases har : s.auto_random = true
      · have hr := get_next_random c s hp hq har
        rw [hr.1] at ha
        rw [hr.2.2 a ha]
        have := (getRandomArtwork_frame c s).2.1
        rw [this]
      · have hnone : get_next c s = (none, s) := by
          unfold get_next
          rw [hp]
          dsimp only
          rw [if_neg (by simp [hq]), if_neg har]
        rw [hnone] at ha
        simp at ha
    · rw [get_next_queue c s hp hq] at ha ⊢
      simp only [Option.some.injEq] at ha
      rw [← ha]
  · intro hnone
    cases hpo : s.pending_overlay with
    | some a =>
      rw [get_next_pending c s a hpo] at hnone
      simp at hnone
    | none =>
      by_cases hq : s.queue = []
      · by_cases har : s.auto_random = true
        · have hr := get_next_random c s hpo hq har
          rw [hr.1] at hnone
          rw [hr.2.1 hnone]
          exact (getRandomArtwork_frame c s).2.1
        · have hnoner : get_next c s = (none, s) := by
            unfold get_next
            rw [hpo]
            dsimp only
            rw [if_neg (by simp [hq]), if_neg har]
          rw [hnoner]
      · rw [get_next_queue c s hpo hq] at hnone
        simp at hnone
  · intro A
    unfold add_to_queue
    cases usableCid A
    · rfl
    · dsimp only
      split
      · rfl
      · rfl
  · intro cid
    unfold remove_from_queue
    cases s.queue.findIdx? (fun item => decide (item.content_id = some cid))
    · rfl
    · rfl
  · intro σ L
    simp [set_queue]
  · intro A
    unfold add_overlay
    cases usableCid A
    · rfl
    · rfl
  · unfold get_previous
    split
    · exact Or.inl rfl
    · dsimp only
      split
      · exact Or.inr rfl
      · exact Or.inr rfl
  · intro σ v
    unfold set_shuffle
    dsimp only
    split
    · rfl
    · rfl

/-- C1 witness: from a one-element queue with no pending override, `get_next`
appends the returned artwork to the (initially empty) History. -/
theorem C1_witness :
    (get_next 0 { initState true with queue := [artA] }).1 = some artA ∧
    (get_next 0 { initState true with queue := [artA] }).2.history = [artA] := by
  have h := (C1_history_single_writer { initState true with queue := [artA] } 0).1
      rfl artA (by decide)
  exact ⟨by decide, by rw [h]; decide⟩

/-- C1 counterexample: a result served from the pending override slot is
returned without any History entry being appended, so the claim's "whether
the result came from the pending override slot" part is false on the code. -/
theorem C1_counterexample :
    (get_next 0 { initState true with pending_overlay := some artY }).1 = some artY ∧
    (get_next 0 { initState true with pending_overlay := some artY }).2.history = [] := by
  decide

/-- C2 (amended): `set_queue L` replaces the queue with a copy of `L` from
which items with no usable content id are dropped — duplicates are kept, no
deduplication happens — shuffles the new queue when shuffle mode is active,
leaves History and the pending override untouched, and resets the cursor to
`-1` so that (absent a pending override) the next `get_next` returns the
first (possibly shuffled) element. -/
theorem C2_set_queue_spec (σ : List Artwork → List Artwork) (L : List Artwork)
    (s : QMState) :
    (set_queue σ L s).queue =
      (if s.shuffle then σ (L.filter (fun a => (usableCid a).isSome))
       else L.filter (fun a => (usableCid a).isSome)) ∧
    (set_queue σ L s).current_index = -1 ∧
    (set_queue σ L s).history = s.history ∧
    (set_queue σ L s).pending_overlay = s.pending_overlay ∧
    (s.pending_overlay = none → (set_queue σ L s).queue ≠ [] → ∀ c,
      (get_next c (set_queue σ L s)).1 =
        some ((set_queue σ L s).queue.getD 0 emptyArtwork)) := by
  refine ⟨by simp [set_queue], by simp [set_queue], by simp [set_queue],
      by simp [set_queue], ?_⟩
  intro hp hq c
  have hp1 : (set_queue σ L s).pending_overlay = none := by simp [set_queue, hp]
  have hi1 : (set_queue σ L s).current_index = -1 := by simp [set_queue]
  rw [get_next_queue c _ hp1 hq, hi1]
  norm_num

/-- C2 witness: `set_queue [artA, artB]` with shuffle off resets the cursor so
the next `get_next` returns `artA`. -/
theorem C2_witness :
    (set_queue (fun l => l) [artA, artB] (initState false)).current_index = -1 ∧
    (get_next 0 (set_queue (fun l => l) [artA, artB] (initState false))).1 =
      some artA := by
  have h := C2_set_queue_spec (fun l => l) [artA, artB] (initState false)
  refine ⟨h.2.1, ?_⟩
  rw [h.2.2.2.2 rfl (by decide) 0]
  decide

/-- C2 counterexample: `set_queue` performs no deduplication: replacing the
queue with `[artA, artA]` leaves two queue elements sharing content id
`"a"`, falsifying the claim's "no two queue elements share the same id". -/
theorem C2_counterexample :
    (set_queue (fun l => l) [artA, artA] (initState false)).queue = [artA, artA] ∧
    ¬ ((set_queue (fun l => l) [artA, artA] (initState false)).queue.map
        (fun a => a.content_id)).Nodup := by
  decide

/-- C7: `peek_next` never mutates the queue-manager state — the returned
state is the input state on every path — and with a non-empty queue its
result is stable across repeated calls (independent of the random oracle) and
equals what the next `get_next` would return. -/
theorem C7_peek_next_pure (s : QMState) (c : Nat) :
    (peek_next c s).2 = s ∧
    (s.queue ≠ [] →
      ((peek_next c s).1).isSome ∧
      (∀ c2, (peek_next c s).1 = (peek_next c2 s).1) ∧
      (peek_next c s).1 = (get_next c s).1) := by
  refine ⟨peek_next_state_unchanged c s, ?_⟩
  intro hq
  cases hpo : s.pending_overlay with
  | some a =>
    have hp : ∀ cx, peek_next cx s = (some a, s) := fun cx => by
      unfold peek_next
      rw [hpo]
    rw [hp c]
    exact ⟨rfl, fun c2 => by rw [hp c2], by rw [get_next_pending c s a hpo]⟩
  | none =>
    have hp : ∀ cx, peek_next cx s =
        (some (s.queue.getD ((s.current_index + 1) % (s.queue.length : Int)).toNat
          emptyArtwork), s) := fun cx => by
      unfold peek_next
      rw [hpo]
      dsimp only
      rw [if_pos hq]
    rw [hp c]
    exact ⟨rfl, fun c2 => by rw [hp c2], by rw [get_next_queue c s hpo hq]⟩

/-- C7 witness: with queue `[artA]`, `peek_next` returns `artA`, agrees with
`get_next`, and leaves the state untouched. -/
theorem C7_witness :
    ({ initState true with queue := [artA] } : QMState).queue ≠ [] ∧
    (peek_next 0 { initState true with queue := [artA] }).1 =
      (get_next 0 { initState true with queue := [artA] }).1 ∧
    (peek_next 0 { initState true with queue := [artA] }).2 =
      { initState true with queue := [artA] } := by
  have h := C7_peek_next_pure { initState true with queue := [artA] } 0
  exact ⟨by decide, (h.2 (by decide)).2.2, h.1⟩

/-- C9 (amended): for an enabled provider, a refresh whose
`async_load_artworks` raises leaves the catalog unchanged and records the
exception text as the last error; but `MediaFolderProvider.async_load_artworks`
never raises — an unusable folder or a scan error makes it return an empty
list, which the refresh then installs as the new catalog (clearing the last
error), so its failed scans do silently empty the catalog. -/
theorem C9_refresh_error_behavior (p : ProviderState) (e : String)
    (he : p.enabled = true) :
    async_refresh (Except.error e) p = { p with last_error := some e } ∧
    (∀ arts, async_refresh (Except.ok arts) p =
      { p with artworks := arts, last_error := none }) ∧
    (∀ cfg fs, ∃ l, mediaFolderLoadArtworks cfg fs = Except.ok l) ∧
    (∀ cfg fs e2, fs.scan = Except.error e2 →
      async_refresh (mediaFolderLoadArtworks cfg fs) p =
        { p with artworks := (mediaFolderLoadArtworks cfg fs).toOption.getD [],
                 last_error := none }) := by
  have hnotnot : ¬¬(p.enabled = true) := by simp [he]
  refine ⟨?_, fun arts => ?_, fun cfg fs => ?_, fun cfg fs e2 hscan => ?_⟩
  · unfold async_refresh
    rw [if_neg hnotnot]
  · unfold async_refresh
    rw [if_neg hnotnot]
  · unfold mediaFolderLoadArtworks
    rcases hgf : getFolderPath fs with _ | p2
    · exact ⟨[], rfl⟩
    · rcases hscan : fs.scan with e2 | files
      · exact ⟨[], rfl⟩
      · exact ⟨_, rfl⟩
  · have hok : ∃ l, mediaFolderLoadArtworks cfg fs = Except.ok l := by
      unfold mediaFolderLoadArtworks
      rcases hgf : getFolderPath fs with _ | p2
      · exact ⟨[], rfl⟩
      · rw [hscan]
        exact ⟨[], rfl⟩
    obtain ⟨l, hl⟩ := hok
    rw [hl]
    unfold async_refresh
    rw [if_neg hnotnot]
    rfl

/-- C9 witness: an enabled provider whose load raises keeps its catalog and
records the error string. -/
theorem C9_witness :
    providerLoaded.enabled = true ∧
    async_refresh (Except.error "boom") providerLoaded =
      { providerLoaded with last_error := some "boom" } := by
  exact ⟨rfl, (C9_refresh_error_behavior providerLoaded "boom" rfl).1⟩

/-- C9 counterexample: a filesystem error during the media-folder scan does
not retain the catalog: the refresh replaces the prior one-element catalog
with the empty list and records no last error, falsifying the claim. -/
theorem C9_counterexample :
    providerLoaded.artworks = [artA] ∧
    fsScanError.scan = Except.error "OSError: I/O error" ∧
    (async_refresh (mediaFolderLoadArtworks (some "*.jpg") fsScanError)
      providerLoaded).artworks = [] ∧
    (async_refresh (mediaFolderLoadArtworks (some "*.jpg") fsScanError)
      providerLoaded).last_error = none := by
  refine ⟨rfl, rfl, ?_, ?_⟩ <;>
    simp [async_refresh, mediaFolderLoadArtworks, getFolderPath, fsScanError,
      providerLoaded]

/-- C10: every artwork admitted to the queue carries a usable (non-empty)
content id: `add_to_queue` and `set_queue` silently drop id-less artworks,
the media-folder provider's descriptors (which carry only an `id` key) can
never enter the queue through either operation, and every queue-manager
operation preserves the all-queue-members-have-usable-ids invariant. -/
theorem C10_queue_cid_invariant (σ : List Artwork → List Artwork)
    (hσ : ∀ l, (σ l).Perm l) (s : QMState) :
    (∀ A, usableCid A = none → add_to_queue A s = s) ∧
    (∀ L a, a ∈ (set_queue σ L s).queue → (usableCid a).isSome ∧ a ∈ L) ∧
    (∀ L, QueueInv (set_queue σ L s)) ∧
    (∀ f, usableCid (mkMediaArtwork f) = none) ∧
    (∀ f, add_to_queue (mkMediaArtwork f) s = s) ∧
    (∀ f L, mkMediaArtwork f ∉ (set_queue σ L s).queue) ∧
    (QueueInv s → ∀ A, QueueInv (add_to_queue A s)) ∧
    (QueueInv s → ∀ cid, QueueInv (remove_from_queue cid s).2) ∧
    (QueueInv s → ∀ c, QueueInv (get_next c s).2) ∧
    (QueueInv s → QueueInv (get_previous s).2) ∧
    (QueueInv s → ∀ c, QueueInv (peek_next c s).2) ∧
    (QueueInv s → ∀ A, QueueInv (add_overlay A s)) ∧
    QueueInv (qmClear s) ∧
    (QueueInv s → ∀ v, QueueInv (set_shuffle σ v s)) ∧
    (QueueInv s → ∀ L, QueueInv (set_available_artworks L s)) := by
  have hmedia : ∀ f, usableCid (mkMediaArtwork f) = none := fun f => rfl
  have hsetq : ∀ L a, a ∈ (set_queue σ L s).queue → (usableCid a).isSome ∧ a ∈ L := by
    intro L a ha
    have hq : (set_queue σ L s).queue =
        (if s.shuffle then σ (L.filter (fun x => (usableCid x).isSome))
         else L.filter (fun x => (usableCid x).isSome)) := by
      simp [set_queue]
    rw [hq] at ha
    have hmem : a ∈ L.filter (fun x => (usableCid x).isSome) := by
      by_cases hsh : s.shuffle
      · rw [if_pos hsh] at ha
        exact (hσ _).mem_iff.mp ha
      · rw [if_neg hsh] at ha
        exact ha
    have := List.mem_filter.mp hmem
    exact ⟨this.2, this.1⟩
  have haddnone : ∀ A, usableCid A = none → add_to_queue A s = s := by
    intro A hA
    unfold add_to_queue
    rw [hA]
  refine ⟨haddnone, hsetq, fun L a ha => (hsetq L a ha).1, hmedia,
      fun f => haddnone _ (hmedia f), ?_, ?_, ?_, ?_, ?_, ?_, ?_, ?_, ?_, ?_⟩
  · intro f L hmem
    exact absurd (hsetq L _ hmem).1 (by rw [hmedia f]; decide)
  · intro hinv A
    unfold add_to_queue
    cases hA : usableCid A with
    | none => exact hinv
    | some cA =>
      dsimp only
      split
      · exact hinv
      · intro a ha
        rcases List.mem_append.mp ha with hmem | hmem
        · exact hinv a hmem
        · rw [List.mem_singleton.mp hmem, hA]
          rfl
  · intro hinv cid
    unfold remove_from_queue
    cases s.queue.findIdx? (fun item => decide (item.content_id = some cid)) with
    | none => exact hinv
    | some i =>
      intro a ha
      exact hinv a (List.eraseIdx_subset s.queue i ha)
  · intro hinv c
    intro a ha
    rw [get_next_queue_unchanged c s] at ha
    exact hinv a ha
  · intro hinv a ha
    rw [get_previous_queue_unchanged s] at ha
    exact hinv a ha
  · intro hinv c a ha
    rw [peek_next_state_unchanged c s] at ha
    exact hinv a ha
  · intro hinv A
    unfold add_overlay
    cases usableCid A with
    | none => exact hinv
    | some cA => exact fun a ha => hinv a ha
  · intro a ha
    exact absurd ha (by simp [qmClear])
  · intro hinv v
    unfold set_shuffle
    dsimp only
    split
    · intro a ha
      exact hinv a ((hσ s.queue).mem_iff.mp ha)
    · exact hinv
  · intro hinv L
    exact hinv

/-- C10 witness: the media-folder descriptor for a scanned file is rejected by
`add_to_queue` and dropped by `set_queue`. -/
theorem C10_witness :
    add_to_queue (mkMediaArtwork mfFileW) (initState true) = initState true ∧
    mkMediaArtwork mfFileW ∉
      (set_queue (fun l => l) [artA, mkMediaArtwork mfFileW] (initState true)).queue := by
  have h := C10_queue_cid_invariant (fun l => l) (fun l => List.Perm.refl l)
      (initState true)
  exact ⟨h.2.2.2.2.1 mfFileW, h.2.2.2.2.2.1 mfFileW [artA, mkMediaArtwork mfFileW]⟩

/-- C4 (amended): with auto-random on, an empty queue, no pending override and
a pool of more than one artwork, `get_next` always succeeds (never `none`),
and when every pool member is in Recently-Shown that set is cleared before the
pick (only the new pick remains recorded); two consecutive `get_next` calls
never return the same artwork provided the second pick's anti-repeat filter is
non-empty — when it is empty the exhaustion reset lets the just-shown artwork
repeat immediately. -/
theorem C4_random_no_immediate_repeat (s : QMState) (c1 : Nat)
    (ha : s.auto_random = true) (hq : s.queue = [])
    (hp : s.pending_overlay = none)
    (hpool : 1 < s.available_artworks.length) :
    ((get_next c1 s).1).isSome ∧
    ((∀ a ∈ s.available_artworks, a.content_id ∈ s.recently_shown) →
      ∀ a, (get_next c1 s).1 = some a →
        (get_next c1 s).2.recently_shown = [a.content_id]) ∧
    (∀ a, (get_next c1 s).1 = some a →
      notRecent (get_next c1 s).2 ≠ [] →
      ∀ c2, (get_next c2 (get_next c1 s).2).1 ≠ some a) ∧
    (∀ c2, ((get_next c2 (get_next c1 s).2).1).isSome) := by
  have hpoolne : s.available_artworks ≠ [] := by
    intro h0
    rw [h0] at hpool
    simp at hpool
  have hr := get_next_random c1 s hp hq ha
  have hsome1 : ((get_next c1 s).1).isSome := by
    rw [hr.1]
    exact getRandomArtwork_isSome c1 s hpoolne
  obtain ⟨a0, ha0⟩ := Option.isSome_iff_exists.mp hsome1
  have hg0 : (getRandomArtwork c1 s).1 = some a0 := by rw [← hr.1]; exact ha0
  have hs2 := hr.2.2 a0 hg0
  have frame := getRandomArtwork_frame c1 s
  have hq2 : (get_next c1 s).2.queue = [] := by
    rw [hs2]
    exact frame.1.trans hq
  have hp2 : (get_next c1 s).2.pending_overlay = none := by
    rw [hs2]
    exact frame.2.2.1.trans hp
  have ha2 : (get_next c1 s).2.auto_random = true := by
    rw [hs2]
    exact frame.2.2.2.2.1.trans ha
  have hav2 : (get_next c1 s).2.available_artworks = s.available_artworks := by
    rw [hs2]
    exact frame.2.2.2.1
  have hrs2 : (get_next c1 s).2.recently_shown =
      (getRandomArtwork c1 s).2.recently_shown := by
    rw [hs2]
  have hpoolne2 : (get_next c1 s).2.available_artworks ≠ [] := by
    rw [hav2]
    exact hpoolne
  refine ⟨hsome1, ?_, ?_, ?_⟩
  · intro hall a ha1
    have hfil : notRecent s = [] := by
      unfold notRecent
      refine List.filter_eq_nil_iff.mpr ?_
      intro x hx
      simp [hall x hx]
    rw [ha0] at ha1
    simp only [Option.some.injEq] at ha1
    subst ha1
    rw [hrs2, getRandomArtwork_reset_spec c1 s hpoolne hfil a0 hg0]
    simp [dequeAppend]
  · intro a ha1 hnr c2
    rw [ha0] at ha1
    simp only [Option.some.injEq] at ha1
    subst ha1
    have hacid : a0.content_id ∈ (get_next c1 s).2.recently_shown := by
      rw [hrs2]
      exact (getRandomArtwork_some_spec c1 s hpoolne a0 hg0).2
    have hr2 := get_next_random c2 (get_next c1 s).2 hp2 hq2 ha2
    intro hcontra
    rw [hr2.1] at hcontra
    have := getRandomArtwork_nonreset_spec c2 (get_next c1 s).2 hnr a0 hcontra
    exact this.1 hacid
  · intro c2
    have hr2 := get_next_random c2 (get_next c1 s).2 hp2 hq2 ha2
    rw [hr2.1]
    exact getRandomArtwork_isSome c2 (get_next c1 s).2 hpoolne2

/-- C4 witness: from a fresh state with pool `[artA, artB]`, the first call
returns `artA`, the anti-repeat filter for the second call is non-empty, and
the second call cannot return `artA` again. -/
theorem C4_witness :
    (get_next 0 sPool2).1 = some artA ∧
    notRecent (get_next 0 sPool2).2 ≠ [] ∧
    (get_next 0 (get_next 0 sPool2).2).1 ≠ some artA := by
  have h := C4_random_no_immediate_repeat sPool2 0 rfl rfl rfl (by decide)
  exact ⟨by decide, by decide, h.2.2.1 artA (by decide) (by decide) 0⟩

/-- C4 counterexample: with pool `[artA, artB]` (two artworks with distinct
ids) and choices 0, 0, 1, the second and third `get_next` calls both return
`artB`: after the second call both pool ids are recently shown, the
exhaustion reset clears the set and the third pick may repeat the just-shown
artwork, falsifying "two consecutive calls never return the same artwork". -/
theorem C4_counterexample :
    (get_next 0 (get_next 0 sPool2).2).1 = some artB ∧
    (get_next 1 (get_next 0 (get_next 0 sPool2).2).2).1 = some artB := by
  decide

/-- C3: for a non-empty artwork list `L` with unique usable ids and no pending
override, after `set_queue L` the first `L.length` calls of `get_next` return
exactly the (possibly shuffled) queue — each element of `L` exactly once —
and the `(L.length + 1)`-th call wraps around and returns the same element as
the first call. -/
theorem C3_queue_cycle (σ : List Artwork → List Artwork) (L : List Artwork)
    (s : QMState) (chs : Nat → Nat)
    (hL : L ≠ []) (hids : ∀ a ∈ L, (usableCid a).isSome)
    (hdist : (L.map (fun a => a.content_id)).Nodup)
    (hσ : ∀ l, (σ l).Perm l)
    (hp : s.pending_overlay = none) :
    (getNextRun chs L.length (set_queue σ L s)).1 =
      (set_queue σ L s).queue.map some ∧
    ((set_queue σ L s).queue).Perm L ∧
    (getNextRun chs (L.length + 1) (set_queue σ L s)).1 =
      (set_queue σ L s).queue.map some ++
        [some ((set_queue σ L s).queue.getD 0 emptyArtwork)] ∧
    (getNextRun chs (L.length + 1) (set_queue σ L s)).1.getLast? =
      (getNextRun chs (L.length + 1) (set_queue σ L s)).1.head? := by
  have hfilter : L.filter (fun a => (usableCid a).isSome) = L :=
    List.filter_eq_self.mpr hids
  have hqueue : (set_queue σ L s).queue = (if s.shuffle then σ L else L) := by
    simp [set_queue, hfilter]
  have hperm : ((set_queue σ L s).queue).Perm L := by
    rw [hqueue]
    by_cases hsh : s.shuffle
    · rw [if_pos hsh]
      exact hσ L
    · rw [if_neg hsh]
  have hlen : (set_queue σ L s).queue.length = L.length := hperm.length_eq
  have hqne : (set_queue σ L s).queue ≠ [] := by
    intro h0
    apply hL
    have hl0 := hperm.length_eq
    rw [h0] at hl0
    simp only [List.length_nil] at hl0
    exact List.length_eq_zero.mp hl0.symm
  have hp1 : (set_queue σ L s).pending_overlay = none := by simp [set_queue, hp]
  have hi1 : (set_queue σ L s).current_index = -1 := by simp [set_queue]
  have hidx : ∀ t : Nat, t < L.length →
      (((set_queue σ L s).current_index + 1 + (t : Int)) %
        ((set_queue σ L s).queue.length : Int)).toNat = t := by
    intro t ht
    rw [hi1, hlen]
    have h1 : (-1 + 1 + (t : Int)) = (t : Int) := by ring
    rw [h1, Int.emod_eq_of_lt (Int.natCast_nonneg t) (by exact_mod_cast ht)]
    simp
  have hfront : (List.range L.length).map (fun (t : Nat) =>
      some ((set_queue σ L s).queue.getD
        ((((set_queue σ L s).current_index + 1 + (t : Int)) %
          ((set_queue σ L s).queue.length : Int)).toNat) emptyArtwork)) =
      (set_queue σ L s).queue.map some := by
    have step1 : (List.range L.length).map (fun (t : Nat) =>
        some ((set_queue σ L s).queue.getD
          ((((set_queue σ L s).current_index + 1 + (t : Int)) %
            ((set_queue σ L s).queue.length : Int)).toNat) emptyArtwork)) =
        (List.range L.length).map (fun (t : Nat) =>
          some ((set_queue σ L s).queue.getD t emptyArtwork)) := by
      apply List.map_congr_left
      intro t ht
      rw [hidx t (List.mem_range.mp ht)]
    rw [step1]
    have step2 : (List.range L.length).map (fun (t : Nat) =>
        some ((set_queue σ L s).queue.getD t emptyArtwork)) =
        ((List.range (set_queue σ L s).queue.length).map
          (fun t => (set_queue σ L s).queue.getD t emptyArtwork)).map some := by
      rw [List.map_map, hlen]
      rfl
    rw [step2, range_map_getD]
  have hrun := getNextRun_queue L.length chs (set_queue σ L s) hp1 hqne
  have hmain : (getNextRun chs L.length (set_queue σ L s)).1 =
      (set_queue σ L s).queue.map some := by
    rw [hrun.1]
    exact hfront
  have hidxn : (((set_queue σ L s).current_index + 1 + (L.length : Int)) %
      ((set_queue σ L s).queue.length : Int)).toNat = 0 := by
    rw [hi1, hlen]
    have h1 : (-1 + 1 + (L.length : Int)) = (L.length : Int) := by ring
    rw [h1, Int.emod_self]
    rfl
  have hrun1 := getNextRun_queue (L.length + 1) chs (set_queue σ L s) hp1 hqne
  have hmain1 : (getNextRun chs (L.length + 1) (set_queue σ L s)).1 =
      (set_queue σ L s).queue.map some ++
        [some ((set_queue σ L s).queue.getD 0 emptyArtwork)] := by
    rw [hrun1.1]
    have hrs : List.range (L.length + 1) = List.range L.length ++ [L.length] :=
      List.range_succ L.length
    rw [hrs, List.map_append, hfront]
    simp only [List.map_cons, List.map_nil]
    rw [hidxn]
  obtain ⟨a, rest, hq0⟩ : ∃ a rest, (set_queue σ L s).queue = a :: rest := by
    cases hqq : (set_queue σ L s).queue with
    | nil => exact absurd hqq hqne
    | cons a rest => exact ⟨a, rest, rfl⟩
  refine ⟨hmain, hperm, hmain1, ?_⟩
  rw [hmain1, hq0]
  rw [List.getLast?_concat]
  simp [List.getD_cons_zero]

/-- C3 witness: with queue `[artA, artB, artC]` and shuffle off, three calls
return `A, B, C` and the fourth wraps back to the first result. -/
theorem C3_witness :
    (getNextRun (fun _ => 0) 3 (set_queue (fun l => l) [artA, artB, artC]
      (initState false))).1 = [some artA, some artB, some artC] ∧
    (getNextRun (fun _ => 0) 4 (set_queue (fun l => l) [artA, artB, artC]
      (initState false))).1.getLast? =
      (getNextRun (fun _ => 0) 4 (set_queue (fun l => l) [artA, artB, artC]
        (initState false))).1.head? := by
  have h := C3_queue_cycle (fun l => l) [artA, artB, artC] (initState false)
      (fun _ => 0) (by decide) (by decide) (by decide)
      (fun l => List.Perm.refl l) rfl
  exact ⟨h.1.trans (by decide), h.2.2.2⟩
